import Mathlib

/-!
Shallow embedding of the quant-code-agent repository:
`src/server.py` (LangGraph agent: RAG augmentation, routing, tool execution,
chat endpoint) and `src/backtrader_service/main.py` (backtest microservice).
External collaborators (vector store, chat model, HTTP transport, backtest
engine) are passed in as parameters, so that every code path of the embedded
functions is driven by an explicit outcome value.
-/

/-- Message roles, mirroring langchain message classes
(HumanMessage / AIMessage / ToolMessage / SystemMessage). -/
inductive Role where
  | user
  | assistant
  | tool
  | system
deriving DecidableEq, Repr

/-- One tool-call request emitted by the model: `{call_id, tool_name, arguments}`. -/
structure ToolCall where
  id : String
  name : String
  args : String
deriving DecidableEq, Repr

/-- A history message. `tool_calls` is the (possibly empty) list of tool-call
requests carried by an assistant message; `tool_call_id` ties a tool message
to the call it resolves. -/
structure Msg where
  role : Role
  content : String
  tool_calls : List ToolCall := []
  tool_call_id : Option String := none
deriving DecidableEq, Repr

def mkUser (c : String) : Msg := { role := Role.user, content := c }

def mkAssistant (c : String) (tcs : List ToolCall) : Msg :=
  { role := Role.assistant, content := c, tool_calls := tcs }

def mkToolMsg (cid c : String) : Msg :=
  { role := Role.tool, content := c, tool_call_id := some cid }

def mkSystem (c : String) : Msg := { role := Role.system, content := c }

/-- Outcome of `vector_store.similarity_search(query, k=1)`: either the call
raises (caught by the `except` in `agent_node`) or returns a list of document
page contents. -/
inductive RetrievalOutcome where
  | raise (e : String)
  | docs (ds : List String)
deriving DecidableEq, Repr

/-- The augmented prompt built in `agent_node`:
`f"【参考背景知识】：{context}\n\n用户问题：{query}"`. -/
def augmentQuery (context query : String) : String :=
  "【参考背景知识】：" ++ context ++ "\n\n用户问题：" ++ query

/-- The RAG block of `agent_node` (src/server.py lines 95-109): if the last
message is a `HumanMessage`, query the vector store; on a raised exception or
an empty result list the history is left untouched; on a hit, the code
overwrites `messages[-1]` with a new `HumanMessage` carrying the augmented
prompt.  (On an empty history the Python would raise `IndexError`; the graph
only calls the node with a non-empty history, embedded as the `none` branch
returning the input.) -/
def ragAugment (rtr : String → RetrievalOutcome) (messages : List Msg) : List Msg :=
  match messages.getLast? with
  | none => messages
  | some last =>
    if last.role = Role.user then
      match rtr last.content with
      | RetrievalOutcome.raise _ => messages
      | RetrievalOutcome.docs [] => messages
      | RetrievalOutcome.docs (context :: _) =>
          messages.dropLast ++ [mkUser (augmentQuery context last.content)]
    else messages

/-- `agent_node` (src/server.py lines 90-113): run the RAG block over the
state's message list, then invoke the model on the resulting list.  Returns
the message list as left behind in the graph state (the Python mutates the
state's list in place) together with the model response that the node
returns for appending. -/
def agent_node (rtr : String → RetrievalOutcome) (mdl : List Msg → Msg)
    (messages : List Msg) : List Msg × Msg :=
  let messages' := ragAugment rtr messages
  (messages', mdl messages')

/-- The graph state's message list after `agent_node` ran: the (possibly
mutated) history with the model response appended by the `add_messages`
reducer.  This is what the checkpointer persists after the node. -/
def agentStateAfter (rtr : String → RetrievalOutcome) (mdl : List Msg → Msg)
    (messages : List Msg) : List Msg :=
  (agent_node rtr mdl messages).1 ++ [(agent_node rtr mdl messages).2]

/-- Conditional-edge targets of `should_continue`: the string "tools" or the
sentinel `END`. -/
inductive Route where
  | tools
  | terminal
deriving DecidableEq, Repr

/-- `should_continue` (src/server.py lines 115-120): look at the last message
of the state; if its `tool_calls` list is non-empty route to "tools",
otherwise `END`.  (The Python indexes `messages[-1]`, which raises on an
empty history; the graph never routes on an empty state, embedded as the
`none` branch returning `terminal`.) -/
def should_continue (messages : List Msg) : Route :=
  match messages.getLast? with
  | none => Route.terminal
  | some m => if m.tool_calls = [] then Route.terminal else Route.tools

/-- Nodes of the compiled workflow (src/server.py lines 123-132):
"agent", "tools", and the `END` sentinel. -/
inductive Node where
  | agent
  | toolsN
  | endN
deriving DecidableEq, Repr

/-- One super-step of the compiled graph, with the external collaborators
(retriever, model, tool executor) as parameters.  At "agent" the node runs
and the conditional edge `should_continue` picks the successor; at "tools"
the `ToolNode` appends one tool message (executor output) per tool call of
the last message and the fixed edge returns to "agent"; `END` is absorbing.
The `ToolNode` behaviour (append a `ToolMessage` per requested call, in
emission order) is the langgraph prebuilt, matching spec §4.3. -/
def stepGraph (rtr : String → RetrievalOutcome) (mdl : List Msg → Msg)
    (exec : ToolCall → String) : Node × List Msg → Node × List Msg
  | (Node.agent, messages) =>
    let next := agentStateAfter rtr mdl messages
    (match should_continue next with
     | Route.tools => Node.toolsN
     | Route.terminal => Node.endN, next)
  | (Node.toolsN, messages) =>
    match messages.getLast? with
    | none => (Node.agent, messages)
    | some m =>
        (Node.agent, messages ++ m.tool_calls.map (fun tc => mkToolMsg tc.id (exec tc)))
  | (Node.endN, messages) => (Node.endN, messages)

/-- A model stub that always requests a tool call (the iteration-cap test
scenario of spec §8). -/
def alwaysToolModel : List Msg → Msg :=
  fun _ => mkAssistant "" [⟨"call_1", "execute_backtest", "{}"⟩]

/-- The system-role messages of a history, in order. -/
def systemMessages (msgs : List Msg) : List Msg :=
  msgs.filter (fun m => m.role = Role.system)

/- ===== src/backtrader_service/main.py ===== -/

/-- A broker as far as `run_backtest` observes it: `setcash` sets the cash,
`getvalue` is cash plus the value of open positions. -/
structure Broker where
  cash : Rat
  positionsValue : Rat
deriving DecidableEq, Repr

def Broker.setcash (b : Broker) (c : Rat) : Broker := { b with cash := c }

def Broker.getvalue (b : Broker) : Rat := b.cash + b.positionsValue

/-- The broker of a fresh `bt.Cerebro()`: backtrader's default cash, no open
positions. -/
def freshBroker : Broker := { cash := 10000, positionsValue := 0 }

/-- Outcome of `exec(request.code, ...)` followed by
`local_scope.get('GeneratedStrategy')`: the code raises during evaluation, or
it runs and the scope lookup is truthy (a class was bound) or falsy. -/
inductive ExecOutcome where
  | raises (e : String)
  | defines (hasStrategy : Bool)
deriving DecidableEq, Repr

/-- Outcome of `cerebro.run()`: raises, or finishes leaving the broker in a
final state with captured log output. -/
inductive EngineOutcome where
  | raises (e : String)
  | done (b : Broker) (logs : String)
deriving DecidableEq, Repr

/-- Response of the `/run_backtest` endpoint: the error dict
`{"status": "error", "message": ...}` or the success dict. -/
inductive BTResponse where
  | error (message : String)
  | success (initial_cash final_value pnl : Rat) (logs : String)
deriving DecidableEq, Repr

/-- `run_backtest` (src/backtrader_service/main.py lines 27-66), with the
strategy evaluation and the engine run as explicit outcomes: evaluation
failure or a missing `GeneratedStrategy` short-circuits to an error response;
otherwise cash is set, `start_val` read, the engine run (its failure is an
error response), and the success dict built from broker values. -/
def run_backtest (execOut : ExecOutcome) (engine : Broker → EngineOutcome)
    (start_cash : Rat) : BTResponse :=
  match execOut with
  | ExecOutcome.raises e => BTResponse.error ("代码编译失败: " ++ e)
  | ExecOutcome.defines false => BTResponse.error "代码中未找到 \x27GeneratedStrategy\x27 类"
  | ExecOutcome.defines true =>
    let b := freshBroker.setcash start_cash
    let start_val := b.getvalue
    match engine b with
    | EngineOutcome.raises e => BTResponse.error ("回测运行报错: " ++ e)
    | EngineOutcome.done b2 logs =>
        BTResponse.success start_val b2.getvalue (b2.getvalue - start_val) logs

/- ===== execute_backtest tool (src/server.py lines 47-71) ===== -/

/-- The JSON body posted to `http://backtrader_engine:8001/run_backtest`:
`{"code": strategy_code, "start_cash": start_cash}`. -/
structure BacktestPayload where
  code : String
  start_cash : Rat
deriving DecidableEq, Repr

/-- Outcome of `requests.post(url, json=payload, timeout=30)`: a response
with a status code, a parsed JSON body and a raw text body, or a raised
exception (timeout, connection failure, ...). -/
inductive HttpOutcome (J : Type) where
  | resp (status : Nat) (jsonBody : J) (textBody : String)
  | exn (e : String)
deriving DecidableEq, Repr

/-- What the tool function returns: the structured JSON value relayed by
`response.json()`, or a plain string. -/
inductive ToolResult (J : Type) where
  | structured (j : J)
  | text (s : String)
deriving DecidableEq, Repr

/-- `execute_backtest` (src/server.py lines 47-71), with the HTTP transport
as a parameter: build the payload, post it; on status 200 return the JSON
body, on any other status return the text body behind a fixed label, and on
a raised exception return the exception text behind a fixed label. -/
def execute_backtest {J : Type} (post : BacktestPayload → HttpOutcome J)
    (strategy_code : String) (start_cash : Rat) : ToolResult J :=
  match post { code := strategy_code, start_cash := start_cash } with
  | HttpOutcome.resp status j t =>
      if status = 200 then ToolResult.structured j
      else ToolResult.text ("回测服务报错: " ++ t)
  | HttpOutcome.exn e => ToolResult.text ("无法连接到回测引擎: " ++ e)

/- ===== /chat endpoint (src/server.py lines 144-166) ===== -/

/-- An inbound `/chat` JSON body before validation: each field present or
absent. -/
structure RawChatRequest where
  message : Option String
  thread_id : Option String
deriving DecidableEq, Repr

/-- The validated `ChatRequest` pydantic model: `message: str`,
`thread_id: str`, both required, neither constrained further. -/
structure ChatRequest where
  message : String
  thread_id : String
deriving DecidableEq, Repr

/-- Pydantic validation of `ChatRequest`: a missing field is a validation
error; any present string (the empty string included) is accepted. -/
def validateChatRequest (r : RawChatRequest) : Except String ChatRequest :=
  match r.message, r.thread_id with
  | some m, some t => Except.ok { message := m, thread_id := t }
  | none, _ => Except.error "field required: message"
  | some _, none => Except.error "field required: thread_id"

/-- The HTTP surface of `POST /chat`: FastAPI turns a pydantic validation
error into a 422 client-error response without entering `chat_endpoint`;
otherwise `chat_endpoint` runs a turn for the validated request. -/
def chatHTTP (runTurnFor : ChatRequest → String) (r : RawChatRequest) : Nat × String :=
  match validateChatRequest r with
  | Except.ok req => (200, runTurnFor req)
  | Except.error e => (422, e)

/- ===== RunTurn, modelled from the spec ===== -/

/-- Graph state per spec §3: messages, the set of pending tool-call ids, and
the iteration counter. -/
structure GraphState where
  messages : List Msg
  pending_tool_calls : List String
  iteration_count : Nat
deriving DecidableEq, Repr

/-- How a turn ended: normal terminal state, aborted on the iteration limit,
or the step budget of the model ran out (the run was cut off mid-turn). -/
inductive TurnOutcome where
  | terminal (content : String)
  | aborted (content : String)
  | outOfFuel
deriving DecidableEq, Repr

/-- A finished run: final graph state, number of checkpoint writes
performed, and the outcome. -/
structure TurnTrace where
  state : GraphState
  writes : Nat
  outcome : TurnOutcome
deriving DecidableEq, Repr

/-- Modelled from the spec: the Graph Executor's RunTurn loop (§4.1) with
the Checkpoint Store write points of §4.4.  Checkpoint scheduling is
implemented by the external graph framework that `chat_endpoint` compiles
the workflow with, not by code under src/, so it is taken from the spec's
words: one write right after an Assistant message with pending tool calls
is appended, and one write at turn termination or abort.  `writes` counts
the checkpoint writes so far; `fuel` bounds the number of model steps so
the function is total (the spec's abort path fires once `iteration_count`
reaches the configured maximum). -/
def runTurn (mdl : List Msg → Msg) (exec : ToolCall → String) (maxIter : Nat) :
    Nat → GraphState → Nat → TurnTrace
  | 0, st, w => { state := st, writes := w, outcome := TurnOutcome.outOfFuel }
  | fuel + 1, st, w =>
    let response := mdl st.messages
    if response.tool_calls = [] then
      { state := { st with messages := st.messages ++ [response],
                           pending_tool_calls := [] },
        writes := w + 1,
        outcome := TurnOutcome.terminal response.content }
    else
      let st2 : GraphState :=
        { st with
            messages := (st.messages ++ [response])
              ++ response.tool_calls.map (fun tc => mkToolMsg tc.id (exec tc)),
            pending_tool_calls := [],
            iteration_count := st.iteration_count + 1 }
      if maxIter ≤ st2.iteration_count then
        { state := { st2 with messages := st2.messages ++ [mkSystem "iteration limit reached"] },
          writes := w + 2,
          outcome := TurnOutcome.aborted response.content }
      else
        runTurn mdl exec maxIter fuel st2 (w + 1)

/-- A retriever stub whose query always raises (spec §8, retrieval
degradation scenario). -/
def failRtr : String → RetrievalOutcome :=
  fun _ => RetrievalOutcome.raise "connection refused"

/-- A concrete engine stub: the strategy run leaves the broker 5 richer. -/
def demoEngine : Broker → EngineOutcome :=
  fun b => EngineOutcome.done { b with cash := b.cash + 5 } "log"

/- ===== Shared lemmas ===== -/

theorem systemMessages_append (a b : List Msg) :
    systemMessages (a ++ b) = systemMessages a ++ systemMessages b :=
  List.filter_append a b

/-- The RAG block never adds or removes a system message: it either leaves
the history alone or swaps the final user message for another user message. -/
theorem ragAugment_systemMessages (rtr : String → RetrievalOutcome) (msgs : List Msg) :
    systemMessages (ragAugment rtr msgs) = systemMessages msgs := by
  unfold ragAugment
  cases hlast : msgs.getLast? with
  | none => rfl
  | some last =>
    dsimp only
    by_cases hrole : last.role = Role.user
    · rw [if_pos hrole]
      cases hr : rtr last.content with
      | raise e => rfl
      | docs ds =>
        cases ds with
        | nil => rfl
        | cons context rest =>
          show systemMessages (msgs.dropLast ++ [mkUser (augmentQuery context last.content)])
              = systemMessages msgs
          have hdecomp : msgs.dropLast ++ [last] = msgs :=
            List.dropLast_append_getLast? last hlast
          have h1 : systemMessages [mkUser (augmentQuery context last.content)] = [] := by
            simp [systemMessages, mkUser]
          have h2 : systemMessages [last] = [] := by
            simp [systemMessages, hrole]
          calc systemMessages (msgs.dropLast ++ [mkUser (augmentQuery context last.content)])
              = systemMessages msgs.dropLast := by rw [systemMessages_append, h1, List.append_nil]
            _ = systemMessages (msgs.dropLast ++ [last]) := by
                rw [systemMessages_append, h2, List.append_nil]
            _ = systemMessages msgs := by rw [hdecomp]
    · rw [if_neg hrole]

/-- The RAG block leaves a history alone when its last message is not a
user message. -/
theorem ragAugment_nonuser_last (rtr : String → RetrievalOutcome)
    (msgs : List Msg) (m : Msg) (hm : ¬ m.role = Role.user) :
    ragAugment rtr (msgs ++ [m]) = msgs ++ [m] := by
  unfold ragAugment
  rw [List.getLast?_concat]
  dsimp only
  rw [if_neg hm]

/-- One graph step from the agent node under the always-tool-calling model
routes to the tools node (never to `END`) and preserves the system
messages; one step from the tools node returns to the agent node and
appends only tool-role messages.  Invariant iterated `n` times. -/
theorem stepGraph_alwaysTool_invariant (rtr : String → RetrievalOutcome)
    (exec : ToolCall → String) (n : Nat) :
    ∀ p : Node × List Msg, p.1 ≠ Node.endN →
      ((stepGraph rtr alwaysToolModel exec)^[n] p).1 ≠ Node.endN
      ∧ systemMessages ((stepGraph rtr alwaysToolModel exec)^[n] p).2
          = systemMessages p.2 := by
  induction n with
  | zero => intro p hp; exact ⟨hp, rfl⟩
  | succ k ih =>
    intro p hp
    rw [Function.iterate_succ_apply]
    have hstep : (stepGraph rtr alwaysToolModel exec p).1 ≠ Node.endN
        ∧ systemMessages (stepGraph rtr alwaysToolModel exec p).2 = systemMessages p.2 := by
      obtain ⟨node, msgs⟩ := p
      cases node with
      | agent =>
        have hsc : should_continue (agentStateAfter rtr alwaysToolModel msgs) = Route.tools := by
          unfold agentStateAfter agent_node should_continue
          dsimp only
          rw [List.getLast?_concat]
          rfl
        have heq : stepGraph rtr alwaysToolModel exec (Node.agent, msgs)
            = (Node.toolsN, agentStateAfter rtr alwaysToolModel msgs) := by
          unfold stepGraph
          dsimp only
          rw [hsc]
        rw [heq]
        refine ⟨fun hcon => Node.noConfusion hcon, ?_⟩
        show systemMessages (agentStateAfter rtr alwaysToolModel msgs) = systemMessages msgs
        unfold agentStateAfter agent_node
        rw [systemMessages_append, ragAugment_systemMessages]
        simp [systemMessages, alwaysToolModel, mkAssistant]
      | toolsN =>
        cases hlast : msgs.getLast? with
        | none =>
          have heq : stepGraph rtr alwaysToolModel exec (Node.toolsN, msgs)
              = (Node.agent, msgs) := by
            unfold stepGraph
            dsimp only
            rw [hlast]
          rw [heq]
          exact ⟨fun hcon => Node.noConfusion hcon, rfl⟩
        | some m =>
          have heq : stepGraph rtr alwaysToolModel exec (Node.toolsN, msgs)
              = (Node.agent,
                 msgs ++ m.tool_calls.map (fun tc => mkToolMsg tc.id (exec tc))) := by
            unfold stepGraph
            dsimp only
            rw [hlast]
          rw [heq]
          refine ⟨fun hcon => Node.noConfusion hcon, ?_⟩
          show systemMessages (msgs ++ m.tool_calls.map (fun tc => mkToolMsg tc.id (exec tc)))
              = systemMessages msgs
          rw [systemMessages_append]
          have hnil : systemMessages (m.tool_calls.map (fun tc => mkToolMsg tc.id (exec tc)))
              = [] := by
            unfold systemMessages
            apply List.filter_eq_nil_iff.2
            intro a ha
            obtain ⟨tc, -, rfl⟩ := List.mem_map.1 ha
            simp [mkToolMsg]
          rw [hnil, List.append_nil]
      | endN => exact absurd rfl hp
    obtain ⟨h1, h2⟩ := ih (stepGraph rtr alwaysToolModel exec p) hstep.1
    exact ⟨h1, h2.trans hstep.2⟩

/-- Bookkeeping of the RunTurn loop, by induction on fuel: the iteration
counter never decreases, and a run that did not run out of fuel performs
exactly one checkpoint write per completed tool iteration plus one final
write at termination or abort. -/
theorem runTurn_writes_aux (mdl : List Msg → Msg) (exec : ToolCall → String)
    (maxIter : Nat) :
    ∀ (fuel : Nat) (st : GraphState) (w : Nat),
      st.iteration_count ≤ (runTurn mdl exec maxIter fuel st w).state.iteration_count
      ∧ ((runTurn mdl exec maxIter fuel st w).outcome ≠ TurnOutcome.outOfFuel →
          (runTurn mdl exec maxIter fuel st w).writes
            = w + 1 + ((runTurn mdl exec maxIter fuel st w).state.iteration_count
                        - st.iteration_count)) := by
  intro fuel
  induction fuel with
  | zero =>
    intro st w
    exact ⟨Nat.le_refl _, fun h => absurd rfl h⟩
  | succ k ih =>
    intro st w
    unfold runTurn
    dsimp only
    by_cases h1 : (mdl st.messages).tool_calls = []
    · rw [if_pos h1]
      dsimp only
      exact ⟨Nat.le_refl _, fun _ => by omega⟩
    · rw [if_neg h1]
      by_cases h2 : maxIter ≤ st.iteration_count + 1
      · rw [if_pos h2]
        dsimp only
        exact ⟨Nat.le_succ _, fun _ => by omega⟩
      · rw [if_neg h2]
        have hall := ih
          { messages :=
              st.messages ++ [mdl st.messages] ++
                List.map (fun tc => mkToolMsg tc.id (exec tc)) (mdl st.messages).tool_calls,
            pending_tool_calls := [], iteration_count := st.iteration_count + 1 }
          (w + 1)
        refine ⟨Nat.le_trans (Nat.le_succ _) hall.1, fun h => ?_⟩
        have hw := hall.2 h
        have hm := hall.1
        dsimp only at hw hm
        omega

/- ===== Claims ===== -/

/-- C1: the spec demands that retrieval augmentation touch only the copy of
the content sent to the model, with the persisted User message unchanged.
The code violates this: `agent_node` overwrites `messages[-1]` in the live
state with the augmented `HumanMessage`, so on a retrieval hit the state
persisted after the agent node carries the augmented text in place of the
original user text.  Evaluated at the concrete input: history `[user "q"]`,
retrieval hit `"ctx"`, model answering `"ans"`. -/
theorem c1_persisted_history_mutated :
    agentStateAfter (fun _ => RetrievalOutcome.docs ["ctx"])
        (fun _ => mkAssistant "ans" []) [mkUser "q"]
      = [mkUser (augmentQuery "ctx" "q"), mkAssistant "ans" []]
    ∧ augmentQuery "ctx" "q" ≠ "q" := by
  exact ⟨rfl, by decide⟩

/-- C2: the claimed iteration cap does not exist in the code.  With the
model stub that always requests a tool call, after any number `n` of graph
steps starting at the agent node the run has not reached `END`, and no
System message has been added to the history: `should_continue` consults
only the last message's tool calls, so the graph cycles agent → tools
forever instead of aborting after a configured maximum. -/
theorem c2_no_iteration_cap (rtr : String → RetrievalOutcome)
    (exec : ToolCall → String) (s0 : List Msg) (n : Nat) :
    ((stepGraph rtr alwaysToolModel exec)^[n] (Node.agent, s0)).1 ≠ Node.endN
    ∧ systemMessages ((stepGraph rtr alwaysToolModel exec)^[n] (Node.agent, s0)).2
        = systemMessages s0 :=
  stepGraph_alwaysTool_invariant rtr exec n (Node.agent, s0)
    (fun hcon => Node.noConfusion hcon)

/-- C3: routing after the agent step is a pure function of the latest
message appended by that step: whatever the earlier history, appending an
assistant message with tool-call list `tcs` routes to "tools" exactly when
`tcs` is non-empty, and to `END` otherwise. -/
theorem c3_routing_pure (msgs : List Msg) (c : String) (tcs : List ToolCall) :
    should_continue (msgs ++ [mkAssistant c tcs])
      = if tcs = [] then Route.terminal else Route.tools := by
  unfold should_continue
  rw [List.getLast?_concat]
  rfl

/-- C4: if every retrieval query either raises or returns no documents,
`agent_node` leaves the history untouched and returns exactly the model's
response on the unaugmented history — retrieval never blocks or fails the
turn. -/
theorem c4_retrieval_never_blocks (rtr : String → RetrievalOutcome)
    (mdl : List Msg → Msg) (msgs : List Msg)
    (h : ∀ q, rtr q = RetrievalOutcome.docs [] ∨ ∃ e, rtr q = RetrievalOutcome.raise e) :
    agent_node rtr mdl msgs = (msgs, mdl msgs) := by
  have hrag : ragAugment rtr msgs = msgs := by
    unfold ragAugment
    cases hlast : msgs.getLast? with
    | none => rfl
    | some last =>
      dsimp only
      by_cases hrole : last.role = Role.user
      · rw [if_pos hrole]
        rcases h last.content with h1 | ⟨e, h2⟩
        · rw [h1]
        · rw [h2]
      · rw [if_neg hrole]
  rw [agent_node, hrag]

/-- C4 witness: with the always-raising retriever stub, the agent node on
history `[user "q"]` returns the model answer built from the unaugmented
history. -/
theorem c4_retrieval_never_blocks_witness :
    agent_node failRtr (fun _ => mkAssistant "ok" []) [mkUser "q"]
      = ([mkUser "q"], mkAssistant "ok" []) :=
  c4_retrieval_never_blocks failRtr (fun _ => mkAssistant "ok" []) [mkUser "q"]
    (fun _ => Or.inr ⟨"connection refused", rfl⟩)

/-- C5: a transport failure (timeout or connection error, both raised
exceptions of `requests.post`) makes `execute_backtest` return a failure
result carrying the cause as text rather than raising; the tools node
appends that executor output as a tool message tied to the call id and
hands control back to the agent node (the turn is not aborted), where the
model is invoked on the full history including the failure message. -/
theorem c5_tool_failure_surfaced (e code : String) (sc : Rat)
    (rtr : String → RetrievalOutcome) (mdl : List Msg → Msg) (exec : ToolCall → String)
    (msgs : List Msg) (c : String) (tc : ToolCall) :
    execute_backtest (J := BTResponse) (fun _ => HttpOutcome.exn e) code sc
        = ToolResult.text ("无法连接到回测引擎: " ++ e)
    ∧ stepGraph rtr mdl exec (Node.toolsN, msgs ++ [mkAssistant c [tc]])
        = (Node.agent, msgs ++ [mkAssistant c [tc], mkToolMsg tc.id (exec tc)])
    ∧ agent_node rtr mdl (msgs ++ [mkAssistant c [tc], mkToolMsg tc.id (exec tc)])
        = (msgs ++ [mkAssistant c [tc], mkToolMsg tc.id (exec tc)],
           mdl (msgs ++ [mkAssistant c [tc], mkToolMsg tc.id (exec tc)])) := by
  refine ⟨rfl, ?_, ?_⟩
  · have heq : stepGraph rtr mdl exec (Node.toolsN, msgs ++ [mkAssistant c [tc]])
        = (Node.agent, (msgs ++ [mkAssistant c [tc]]) ++ [mkToolMsg tc.id (exec tc)]) := by
      unfold stepGraph
      dsimp only
      rw [List.getLast?_concat]
      rfl
    rw [heq, List.append_assoc]
    rfl
  · have h3 : ragAugment rtr (msgs ++ [mkAssistant c [tc], mkToolMsg tc.id (exec tc)])
        = msgs ++ [mkAssistant c [tc], mkToolMsg tc.id (exec tc)] := by
      have hx := ragAugment_nonuser_last rtr (msgs ++ [mkAssistant c [tc]])
        (mkToolMsg tc.id (exec tc)) (by simp [mkToolMsg])
      simpa [List.append_assoc] using hx
    rw [agent_node, h3]

/-- C6: in the spec-modelled RunTurn, checkpoint writes happen at exactly
the two spec'd points — one write right after each Assistant message with
pending tool calls is appended (one per tool iteration) and one write at
termination or abort — so a finished run performs `iterations + 1` writes;
in particular a turn whose model answers directly (no tool calls) performs
exactly one checkpoint write, ends terminal with the stub content, and
leaves `pending_tool_calls` empty. -/
theorem c6_checkpoint_write_points (mdl : List Msg → Msg) (exec : ToolCall → String)
    (maxIter fuel w : Nat) (st : GraphState)
    (hterm : (runTurn mdl exec maxIter fuel st w).outcome ≠ TurnOutcome.outOfFuel) :
    (runTurn mdl exec maxIter fuel st w).writes
      = w + 1 + ((runTurn mdl exec maxIter fuel st w).state.iteration_count
                  - st.iteration_count)
    ∧ ((mdl st.messages).tool_calls = [] →
        (runTurn mdl exec maxIter fuel st w).writes = w + 1
        ∧ (runTurn mdl exec maxIter fuel st w).state.pending_tool_calls = []
        ∧ (runTurn mdl exec maxIter fuel st w).outcome
            = TurnOutcome.terminal (mdl st.messages).content) := by
  refine ⟨(runTurn_writes_aux mdl exec maxIter fuel st w).2 hterm, fun hdirect => ?_⟩
  cases fuel with
  | zero => exact absurd rfl hterm
  | succ k =>
    unfold runTurn
    dsimp only
    rw [if_pos hdirect]
    exact ⟨rfl, rfl, rfl⟩

/-- C6 witness: Scenario A of spec §8 — thread history one user message,
model stub answering "4" directly, limit 25: one checkpoint write, empty
pending set, terminal outcome with the stub content. -/
theorem c6_checkpoint_write_points_witness :
    (runTurn (fun _ => mkAssistant "4" []) (fun _ => "") 25 1
        { messages := [mkUser "What is 2+2, use no tools"],
          pending_tool_calls := [], iteration_count := 0 } 0).writes = 1
    ∧ (runTurn (fun _ => mkAssistant "4" []) (fun _ => "") 25 1
        { messages := [mkUser "What is 2+2, use no tools"],
          pending_tool_calls := [], iteration_count := 0 } 0).state.pending_tool_calls = []
    ∧ (runTurn (fun _ => mkAssistant "4" []) (fun _ => "") 25 1
        { messages := [mkUser "What is 2+2, use no tools"],
          pending_tool_calls := [], iteration_count := 0 } 0).outcome
        = TurnOutcome.terminal "4" :=
  (c6_checkpoint_write_points (fun _ => mkAssistant "4" []) (fun _ => "") 25 1 0
      { messages := [mkUser "What is 2+2, use no tools"],
        pending_tool_calls := [], iteration_count := 0 }
      (by decide)).2 rfl

/-- C7 counterexample: a request whose `thread_id` is present but empty
passes pydantic validation, so the endpoint does not fail with a client
error — it runs a turn (HTTP 200) with the empty thread id. -/
theorem c7_empty_thread_id_accepted :
    validateChatRequest { message := some "hi", thread_id := some "" }
        = Except.ok { message := "hi", thread_id := "" }
    ∧ chatHTTP (fun r => "ran " ++ r.thread_id) { message := some "hi", thread_id := some "" }
        = (200, "ran ") := by
  exact ⟨rfl, rfl⟩

/-- C7 (amended): a request missing `thread_id` fails with a 422 client
error before any turn runs, but a present-and-empty `thread_id` passes
validation and a turn is run with the empty id. -/
theorem c7_thread_id_validation (runTurnFor : ChatRequest → String)
    (m : Option String) (s : String) :
    (chatHTTP runTurnFor { message := m, thread_id := none }).1 = 422
    ∧ chatHTTP runTurnFor { message := some s, thread_id := some "" }
        = (200, runTurnFor { message := s, thread_id := "" }) := by
  constructor
  · cases m <;> rfl
  · rfl

/-- C8 counterexample: on a non-200 reply whose text is `"boom"`, the tool
returns the text behind the fixed label `回测服务报错: `, which is not the
verbatim error text. -/
theorem c8_error_text_prefixed :
    execute_backtest (J := BTResponse)
        (fun _ => HttpOutcome.resp 500 (BTResponse.error "x") "boom") "code" 100
        = ToolResult.text ("回测服务报错: " ++ "boom")
    ∧ execute_backtest (J := BTResponse)
        (fun _ => HttpOutcome.resp 500 (BTResponse.error "x") "boom") "code" 100
        ≠ ToolResult.text "boom" := by
  exact ⟨rfl, by decide⟩

/-- C8 (amended): the tool forwards exactly the payload
`{code := strategy_code, start_cash}` and relays the parsed JSON body
verbatim on HTTP 200; on any other status it returns the service's error
text behind the label `回测服务报错: `, and on a raised transport exception
the exception text behind `无法连接到回测引擎: `. -/
theorem c8_relay_behaviour {J : Type} (service : BacktestPayload → J)
    (tf : BacktestPayload → String) (code : String) (sc : Rat)
    (status : Nat) (j : J) (t e : String) (hs : status ≠ 200) :
    execute_backtest (J := J) (fun p => HttpOutcome.resp 200 (service p) (tf p)) code sc
        = ToolResult.structured (service { code := code, start_cash := sc })
    ∧ execute_backtest (J := J) (fun _ => HttpOutcome.resp status j t) code sc
        = ToolResult.text ("回测服务报错: " ++ t)
    ∧ execute_backtest (J := J) (fun _ => HttpOutcome.exn e) code sc
        = ToolResult.text ("无法连接到回测引擎: " ++ e) := by
  refine ⟨rfl, ?_, rfl⟩
  unfold execute_backtest
  dsimp only
  rw [if_neg hs]

/-- C8 witness: the amended relay behaviour evaluated at a concrete
transport: JSON body 7 on success, status 400 with text "oops", exception
"down". -/
theorem c8_relay_behaviour_witness :
    execute_backtest (J := Nat) (fun p => HttpOutcome.resp 200 7 (p.code)) "c" 5
        = ToolResult.structured 7
    ∧ execute_backtest (J := Nat) (fun _ => HttpOutcome.resp 400 9 "oops") "c" 5
        = ToolResult.text ("回测服务报错: " ++ "oops")
    ∧ execute_backtest (J := Nat) (fun _ => HttpOutcome.exn "down") "c" 5
        = ToolResult.text ("无法连接到回测引擎: " ++ "down") :=
  c8_relay_behaviour (fun _ => 7) (fun p => p.code) "c" 5 400 9 "oops" "down" (by decide)

/-- C9: whenever `run_backtest` returns a success response, its `pnl` field
is exactly `final_value - initial_cash`, and `initial_cash` is exactly the
`start_cash` of the request (the broker's value right after `setcash`, with
no open positions). -/
theorem c9_pnl_identity (execOut : ExecOutcome) (engine : Broker → EngineOutcome)
    (sc i f p : Rat) (l : String)
    (h : run_backtest execOut engine sc = BTResponse.success i f p l) :
    p = f - i ∧ i = sc := by
  cases execOut with
  | raises e => simp [run_backtest] at h
  | defines hasS =>
    cases hasS with
    | false => simp [run_backtest] at h
    | true =>
      rw [run_backtest] at h
      cases heng : engine (freshBroker.setcash sc) with
      | raises e => rw [heng] at h; simp at h
      | done b2 logs =>
        rw [heng] at h
        simp only [BTResponse.success.injEq] at h
        obtain ⟨hi, hf, hp, -⟩ := h
        have hv : (freshBroker.setcash sc).getvalue = sc := by
          simp [freshBroker, Broker.setcash, Broker.getvalue]
        constructor
        · rw [← hp, ← hf, ← hi]
        · rw [← hi, hv]

/-- C9 witness: with the demo engine (cash + 5) and start cash 100 the
response is `success 100 105 5`, and the identities hold there. -/
theorem c9_pnl_identity_witness : (5 : Rat) = 105 - 100 ∧ (100 : Rat) = 100 :=
  c9_pnl_identity (ExecOutcome.defines true) demoEngine 100 100 105 5 "log"
    (by norm_num [run_backtest, demoEngine, freshBroker, Broker.setcash, Broker.getvalue])

/-- C10: if the submitted code raises during evaluation or binds no truthy
`GeneratedStrategy`, `run_backtest` answers an error response with a
non-empty message, and the answer does not depend on the engine at all (the
engine is never run): any two engines and any two cash values produce the
same response. -/
theorem c10_error_short_circuits (execOut : ExecOutcome)
    (h : (∃ e, execOut = ExecOutcome.raises e) ∨ execOut = ExecOutcome.defines false) :
    ∀ (engine engine2 : Broker → EngineOutcome) (sc sc2 : Rat),
      (∃ msg, msg ≠ "" ∧ run_backtest execOut engine sc = BTResponse.error msg)
      ∧ run_backtest execOut engine sc = run_backtest execOut engine2 sc2 := by
  intro engine engine2 sc sc2
  rcases h with ⟨e, he⟩ | hd
  · subst he
    refine ⟨⟨"代码编译失败: " ++ e, ?_, rfl⟩, rfl⟩
    intro hc
    have hlen := congrArg String.length hc
    rw [String.length_append] at hlen
    have hpre : ("代码编译失败: " : String).length = 8 := by decide
    have hnil : ("" : String).length = 0 := by decide
    rw [hpre, hnil] at hlen
    omega
  · subst hd
    exact ⟨⟨"代码中未找到 \x27GeneratedStrategy\x27 类", by decide, rfl⟩, rfl⟩

/-- C10 witness: code that raises "SyntaxError" yields an error response
independent of the engine and the cash. -/
theorem c10_error_short_circuits_witness :
    (∃ msg, msg ≠ ""
      ∧ run_backtest (ExecOutcome.raises "SyntaxError") demoEngine 100 = BTResponse.error msg)
    ∧ run_backtest (ExecOutcome.raises "SyntaxError") demoEngine 100
        = run_backtest (ExecOutcome.raises "SyntaxError") (fun _ => EngineOutcome.raises "no") 7 :=
  c10_error_short_circuits (ExecOutcome.raises "SyntaxError") (Or.inl ⟨"SyntaxError", rfl⟩)
    demoEngine (fun _ => EngineOutcome.raises "no") 100 7
